import Mathlib

/-!
Verification of the battle synchronization core of a two-player
"guess the Pokémon" game (`src/context/battle-context.tsx`).

The shared Room document, the local client session state, and the public
operations (`createRoom`, `joinRoom`, `leaveRoom`, `startGame`,
`submitGuess`, `nextRound`, `playAgain`) are shallowly embedded as pure
Lean functions.  The Room Store is a function from room codes to optional
Room documents; the store's partial updates are expressed by rebuilding
the document from the locally read snapshot (in the sequential semantics
the snapshot and the stored document coincide).  Randomness (player ids,
room-code generation, creature fetches) is passed in as explicit
parameters, and server timestamps are opaque naturals supplied by the
caller.
-/

namespace Battle

/-! ## Data model -/

/-- Creature snapshot for the active round (`PokemonData` in the source).
The `imageUrl` field is carried along untouched by every operation. -/
structure PokemonData where
  id : Nat
  name : String
  imageUrl : String
deriving DecidableEq, Repr

/-- Recorded guess of one player (`PlayerGuess` in the source); the
timestamp is the server-assigned write time, modelled as a natural. -/
structure PlayerGuess where
  guess : String
  correct : Bool
  timestamp : Nat
deriving DecidableEq, Repr

/-- Room status (`status` field): the authoritative state-machine position. -/
inductive Status where
  | waiting
  | ready
  | countdown
  | playing
  | round_end
  | finished
deriving DecidableEq, Repr

/-- Player role: host or guest. -/
inductive Role where
  | host
  | guest
deriving DecidableEq, Repr

/-- Value of the `roundWinner` field when it is non-null: `'host'`,
`'guest'` or the literal string `'none'`. -/
inductive RoundWinner where
  | host
  | guest
  | noWinner
deriving DecidableEq, Repr

/-- The `roundWinner` tag for the given role. -/
def RoundWinner.ofRole : Role → RoundWinner
  | .host => .host
  | .guest => .guest

/-- Score pair (`scores` field). -/
structure Scores where
  host : Nat
  guest : Nat
deriving DecidableEq, Repr

/-- The shared Room document (`RoomData` in the source). -/
structure RoomData where
  hostId : String
  guestId : Option String
  status : Status
  currentRound : Nat
  totalRounds : Nat
  currentPokemon : Option PokemonData
  scores : Scores
  roundWinner : Option RoundWinner
  gameWinner : Option Role
  hostGuess : Option PlayerGuess
  guestGuess : Option PlayerGuess
  countdownStartAt : Option Nat
  createdAt : Nat
deriving DecidableEq, Repr

/-- Client-local battle state (`BattleState` in the source). -/
inductive BState where
  | idle
  | creating
  | waiting
  | joining
  | ready
  | countdown
  | playing
  | round_end
  | finished
deriving DecidableEq, Repr

/-- Client-local session state: the five `useState` cells of
`BattleProvider` that the operations mutate. -/
structure LocalState where
  roomCode : Option String
  room : Option RoomData
  playerRole : Option Role
  battleState : BState
  error : Option String
deriving DecidableEq, Repr

/-- The Room Store: a map from room codes to Room documents
(`doc(db, 'rooms', code)` point reads/writes). -/
def Store := String → Option RoomData

/-- Store write (`setDoc`): creates or overwrites the document at `k`. -/
def Store.set (s : Store) (k : String) (v : RoomData) : Store :=
  fun c => if c = k then some v else s c

/-- Store deletion (`deleteDoc`). -/
def Store.del (s : Store) (k : String) : Store :=
  fun c => if c = k then none else s c

/-! ## String normalization (`submitGuess`, source lines 289-290)

JavaScript string operations are modelled on `List Char` over the ASCII
range the game uses: `toLowerCase` maps `A`-`Z` to `a`-`z` (as
`Char.toLower` does), `trim` strips leading and trailing whitespace, and
`replace(/[^a-z0-9]/g, '')` keeps exactly the characters in `a`-`z` and
`0`-`9`. -/

/-- Whitespace characters removed by `String.prototype.trim` (the ASCII
ones that can occur in user input: space, tab, newline, carriage return,
form feed, vertical tab). -/
def isJsWhitespace (c : Char) : Bool :=
  c = ' ' || c = '\t' || c = '\n' || c = '\r' || c = '\x0c' || c = '\x0b'

/-- Characters kept by `replace(/[^a-z0-9]/g, '')`. -/
def isLowerAlnum (c : Char) : Bool :=
  ('a' ≤ c && c ≤ 'z') || ('0' ≤ c && c ≤ '9')

/-- JavaScript `toLowerCase` (ASCII fragment). -/
def jsToLower (s : String) : String :=
  (s.toList.map Char.toLower).asString

/-- JavaScript `trim`: drop whitespace from both ends. -/
def jsTrim (s : String) : String :=
  (((s.toList.dropWhile isJsWhitespace).reverse.dropWhile
      isJsWhitespace).reverse).asString

/-- JavaScript `replace(/[^a-z0-9]/g, '')`: keep only `a`-`z`, `0`-`9`. -/
def jsStripNonAlnum (s : String) : String :=
  (s.toList.filter isLowerAlnum).asString

/-- Normalization applied to the submitted guess:
`guess.toLowerCase().trim().replace(/[^a-z0-9]/g, '')`. -/
def normalizeGuess (s : String) : String :=
  jsStripNonAlnum (jsTrim (jsToLower s))

/-- Normalization applied to the creature name:
`name.toLowerCase().replace(/[^a-z0-9]/g, '')` (no `trim`). -/
def normalizeAnswer (s : String) : String :=
  jsStripNonAlnum (jsToLower s)

/-! ## submitGuess (source lines 281-354)

The operation reads the locally cached snapshot `r` and issues a partial
update against the stored document; in the sequential semantics both are
the same document, so the result is the updated `RoomData` paired with
the returned boolean (`isCorrect`). -/

/-- The caller's own guess field (`playerRole === 'host' ? room.hostGuess
: room.guestGuess`). -/
def myGuessOf (role : Role) (r : RoomData) : Option PlayerGuess :=
  match role with
  | .host => r.hostGuess
  | .guest => r.guestGuess

/-- The opponent's guess field. -/
def otherGuessOf (role : Role) (r : RoomData) : Option PlayerGuess :=
  match role with
  | .host => r.guestGuess
  | .guest => r.hostGuess

/-- Write the caller's guess field (`[guessField]: guessData`). -/
def setMyGuess (role : Role) (g : PlayerGuess) (r : RoomData) : RoomData :=
  match role with
  | .host => { r with hostGuess := some g }
  | .guest => { r with guestGuess := some g }

/-- Increment the caller's score (`newScores[playerRole]++`). -/
def bumpScore (role : Role) (sc : Scores) : Scores :=
  match role with
  | .host => { sc with host := sc.host + 1 }
  | .guest => { sc with guest := sc.guest + 1 }

/-- Project the caller's entry out of a score pair. -/
def scoreOf (role : Role) (sc : Scores) : Nat :=
  match role with
  | .host => sc.host
  | .guest => sc.guest

/-- Embedding of `submitGuess(guess)` for the player `role`, executed on
the room snapshot `r` at server time `now`.  Returns the boolean result
together with the room document after the update (the room is unchanged
on every early-return path and on the transport-error path, which is the
only effect of the `try`/`catch`). -/
def submitGuess (role : Role) (guess : String) (now : Nat) (r : RoomData) :
    Bool × RoomData :=
  if r.status ≠ Status.playing then (false, r)
  else match r.currentPokemon with
    | none => (false, r)
    | some pk =>
      match myGuessOf role r with
      | some _ => (false, r)
      | none =>
        let normalizedGuess := normalizeGuess guess
        let normalizedAnswer := normalizeAnswer pk.name
        let isCorrect := normalizedGuess = normalizedAnswer
        let guessData : PlayerGuess :=
          ⟨normalizedGuess, decide isCorrect, now⟩
        let r1 := setMyGuess role guessData r
        if isCorrect then
          let newScores := bumpScore role r.scores
          let isGameOver := 5 ≤ r.currentRound ∨ 3 ≤ scoreOf role newScores
          (true,
            { r1 with
              roundWinner := some (RoundWinner.ofRole role)
              scores := newScores
              status := if isGameOver then .finished else .round_end
              gameWinner :=
                if isGameOver then
                  some (if newScores.guest < newScores.host then Role.host
                        else Role.guest)
                else r.gameWinner })
        else
          match otherGuessOf role r with
          | some og =>
            if og.correct then (false, r1)
            else
              let isGameOver := 5 ≤ r.currentRound
              (false,
                { r1 with
                  roundWinner := some RoundWinner.noWinner
                  status := if isGameOver then .finished else .round_end
                  gameWinner :=
                    if isGameOver then
                      if r.scores.guest < r.scores.host then some Role.host
                      else if r.scores.host < r.scores.guest then
                        some Role.guest
                      else none
                    else r.gameWinner })
          | none => (false, r1)

/-! ## Code generation (source lines 74-82) -/

/-- The room-code alphabet: `'ABCDEFGHJKLMNPQRSTUVWXYZ23456789'`
("Removed confusing chars like 0/O, 1/I"). -/
def roomCodeChars : List Char :=
  "ABCDEFGHJKLMNPQRSTUVWXYZ23456789".toList

/-- Embedding of `generateRoomCode`: the six draws of
`Math.floor(Math.random() * chars.length)` are supplied as `picks`
(each a valid index into the alphabet, as `Math.random() < 1`
guarantees). -/
def generateRoomCode (picks : Fin 6 → Fin 32) : String :=
  (List.ofFn fun i : Fin 6 =>
    roomCodeChars.get (Fin.cast (by decide) (picks i))).asString

/-! ## createRoom (source lines 143-185) -/

/-- The fresh Room document written by `createRoom` (source lines
159-173): `hostId` is the caller, `status` is `waiting`, five total
rounds, everything else empty/zero. -/
def freshRoom (pid : String) (now : Nat) : RoomData where
  hostId := pid
  guestId := none
  status := .waiting
  currentRound := 0
  totalRounds := 5
  currentPokemon := none
  scores := ⟨0, 0⟩
  roundWinner := none
  gameWinner := none
  hostGuess := none
  guestGuess := none
  countdownStartAt := none
  createdAt := now

/-- The collision-check loop of `createRoom` (source lines 149-157),
counting down the remaining loop iterations (`10 - attempts`).  `gen i`
is the result of the `i`-th call to `generateRoomCode`; `idx` is the
index of the current candidate `code = gen idx`.  When a candidate is
free the loop breaks and returns it; when the ten iterations are
exhausted, the final candidate `gen 10` is returned without ever having
been checked against the store. -/
def pickCodeAux (gen : Nat → String) (store : Store) :
    Nat → Nat → String → String
  | 0, _, code => code
  | rem + 1, idx, code =>
    if (store code).isSome then pickCodeAux gen store rem (idx + 1) (gen (idx + 1))
    else code

/-- The room code `createRoom` ends up writing to. -/
def pickCode (gen : Nat → String) (store : Store) : String :=
  pickCodeAux gen store 10 0 (gen 0)

/-- Embedding of `createRoom()`: runs the collision loop, then
unconditionally writes the fresh Room at the chosen code (`setDoc`
creates or overwrites) and installs the host-side local state.  The
source has no failure path for an exhausted collision loop; the
`catch` models only transport errors, which are outside this model. -/
def createRoom (gen : Nat → String) (pid : String) (now : Nat)
    (store : Store) (ls : LocalState) : Store × LocalState :=
  let code := pickCode gen store
  (store.set code (freshRoom pid now),
   { ls with
     roomCode := some code
     playerRole := some Role.host
     battleState := .waiting
     error := none })

/-! ## joinRoom (source lines 187-231) -/

/-- JavaScript `toUpperCase` (ASCII fragment, as `Char.toUpper`). -/
def jsToUpper (s : String) : String :=
  (s.toList.map Char.toUpper).asString

/-- JavaScript truthiness of the nullable string `roomData.guestId`:
`null` and the empty string are falsy. -/
def guestIdTruthy (g : Option String) : Bool :=
  match g with
  | none => false
  | some s => s ≠ ""

/-- Outcome of `joinRoom`: the store after the call, the local state
after the call, and the returned boolean. -/
structure JoinResult where
  store : Store
  local_ : LocalState
  ok : Bool

/-- Embedding of `joinRoom(code)` for caller `pid`.  The lookup key is
`code.toUpperCase()`.  Failure branches set an error message and
`battleState = idle` without touching the store; success updates
`guestId` and `status` on the document and installs the guest-side
local state under the uppercased code. -/
def joinRoom (store : Store) (pid : String) (ls : LocalState)
    (code : String) : JoinResult :=
  let key := jsToUpper code
  match store key with
  | none =>
    ⟨store,
     { ls with
       error := some "Room not found. Check the code and try again."
       battleState := .idle }, false⟩
  | some r =>
    if guestIdTruthy r.guestId then
      ⟨store,
       { ls with
         error := some "Room is full. Try a different code."
         battleState := .idle }, false⟩
    else if r.status ≠ Status.waiting then
      ⟨store,
       { ls with
         error := some "Game already in progress."
         battleState := .idle }, false⟩
    else
      ⟨store.set key { r with guestId := some pid, status := .ready },
       { ls with
         roomCode := some key
         playerRole := some Role.guest
         battleState := .ready
         error := none }, true⟩

/-! ## leaveRoom (source lines 233-258) and the subscription handler -/

/-- Embedding of `leaveRoom()`: the host deletes the document, the guest
clears `guestId` and resets `status` to `waiting` (an `updateDoc` on an
absent document throws and is swallowed, leaving the store unchanged);
in every case the five local cells are reset to the idle configuration.
With no `roomCode` the call returns before doing anything. -/
def leaveRoom (store : Store) (ls : LocalState) : Store × LocalState :=
  match ls.roomCode with
  | none => (store, ls)
  | some code =>
    let store' :=
      match ls.playerRole with
      | some Role.host => store.del code
      | some Role.guest =>
        match store code with
        | some r => store.set code { r with guestId := none, status := .waiting }
        | none => store
      | none => store
    (store',
     { roomCode := none
       room := none
       playerRole := none
       battleState := .idle
       error := none })

/-- The `battleState` mirror of a room status (source lines 114-127). -/
def bstateOfStatus : Status → BState
  | .waiting => .waiting
  | .ready => .ready
  | .countdown => .countdown
  | .playing => .playing
  | .round_end => .round_end
  | .finished => .finished

/-- Embedding of the `onSnapshot` callback (source lines 109-134): a
present document updates `room` and mirrors its status into
`battleState`; an absent document (room deleted) clears `room`,
`roomCode` and `playerRole` and resets `battleState` to `idle`. -/
def handleSnapshot (snap : Option RoomData) (ls : LocalState) : LocalState :=
  match snap with
  | some r => { ls with room := some r, battleState := bstateOfStatus r.status }
  | none =>
    { ls with
      room := none
      roomCode := none
      playerRole := none
      battleState := .idle }

/-! ## Host-driven round progression (source lines 260-279, 356-396)

These three operations update the room document only; the host-only and
`roomCode` guards live in local state and the fetched creature `pk` and
server time `now` are parameters. -/

/-- Room update of `startGame()`: countdown into round 1 with a fresh
creature and cleared per-round fields (scores are left untouched). -/
def startGame (pk : PokemonData) (now : Nat) (r : RoomData) : RoomData :=
  { r with
    status := .countdown
    currentRound := 1
    currentPokemon := some pk
    roundWinner := none
    hostGuess := none
    guestGuess := none
    countdownStartAt := some now }

/-- Room update of `nextRound()`: countdown into the next round with a
fresh creature and cleared per-round fields. -/
def nextRound (pk : PokemonData) (now : Nat) (r : RoomData) : RoomData :=
  { r with
    status := .countdown
    currentRound := r.currentRound + 1
    currentPokemon := some pk
    roundWinner := none
    hostGuess := none
    guestGuess := none
    countdownStartAt := some now }

/-- Room update of `playAgain()`: back to round 1 of a fresh match —
scores zeroed and `roundWinner`, `gameWinner` and both guesses nulled in
the same update that sets `status = countdown`. -/
def playAgain (pk : PokemonData) (now : Nat) (r : RoomData) : RoomData :=
  { r with
    status := .countdown
    currentRound := 1
    currentPokemon := some pk
    scores := ⟨0, 0⟩
    roundWinner := none
    gameWinner := none
    hostGuess := none
    guestGuess := none
    countdownStartAt := some now }

/-! ## Traces of room mutations (for the score-sum invariant) -/

/-- One room-document mutation of an ongoing match. -/
inductive Action where
  | submit (role : Role) (guess : String) (now : Nat)
  | start (pk : PokemonData) (now : Nat)
  | next (pk : PokemonData) (now : Nat)
  | again (pk : PokemonData) (now : Nat)

/-- Apply one action to the room document. -/
def Action.step (r : RoomData) : Action → RoomData
  | .submit role guess now => (submitGuess role guess now r).2
  | .start pk now => startGame pk now r
  | .next pk now => nextRound pk now r
  | .again pk now => playAgain pk now r

/-- Run a list of actions from left to right. -/
def runActions (r : RoomData) (acts : List Action) : RoomData :=
  acts.foldl Action.step r

/-- Total of the two scores. -/
def scoreSum (r : RoomData) : Nat :=
  r.scores.host + r.scores.guest

/-- An action is a guess that wins its round: a `submitGuess` call that
passes every guard and matches the creature name (exactly the calls
that return `true`). -/
def winsRound (r : RoomData) : Action → Bool
  | .submit role guess now => (submitGuess role guess now r).1
  | _ => false

/-- An action that resets the scores (only `playAgain` does). -/
def isAgain : Action → Bool
  | .again _ _ => true
  | _ => false

/-- Number of round-winning guesses along a trace. -/
def countWins (r : RoomData) : List Action → Nat
  | [] => 0
  | a :: as =>
    (if winsRound r a then 1 else 0) + countWins (Action.step r a) as

/-- An action resolves the round: the room is mid-round (`playing`)
before it and settled (`round_end` or `finished`) after it. -/
def resolvesRound (r : RoomData) (a : Action) : Prop :=
  r.status = Status.playing ∧
    ((Action.step r a).status = Status.round_end ∨
     (Action.step r a).status = Status.finished)

/-! ## Concrete sample states for witnesses and evaluations -/

/-- The local state of a client before any room interaction. -/
def idleLS : LocalState :=
  ⟨none, none, none, BState.idle, none⟩

/-- A mid-round room: both players present, round 2 of 5 in `playing`
status with creature `pikachu` on screen and no guesses yet. -/
def playRoom : RoomData where
  hostId := "player_h"
  guestId := some "player_g"
  status := .playing
  currentRound := 2
  totalRounds := 5
  currentPokemon := some ⟨25, "pikachu", "img/25.png"⟩
  scores := ⟨0, 0⟩
  roundWinner := none
  gameWinner := none
  hostGuess := none
  guestGuess := none
  countdownStartAt := some 10
  createdAt := 1

/-- A final-round room one correct host guess away from a 2-2 tie:
round 5 of 5, scores host 1 / guest 2 (reachable: guest won two rounds,
host one, one round had no winner). -/
def tieRoom : RoomData where
  hostId := "player_h"
  guestId := some "player_g"
  status := .playing
  currentRound := 5
  totalRounds := 5
  currentPokemon := some ⟨25, "pikachu", "img/25.png"⟩
  scores := ⟨1, 2⟩
  roundWinner := none
  gameWinner := none
  hostGuess := none
  guestGuess := none
  countdownStartAt := some 50
  createdAt := 1

/-- A waiting room that already has a guest (capacity reached). -/
def fullRoom : RoomData where
  hostId := "player_h"
  guestId := some "player_g"
  status := .waiting
  currentRound := 0
  totalRounds := 5
  currentPokemon := none
  scores := ⟨0, 0⟩
  roundWinner := none
  gameWinner := none
  hostGuess := none
  guestGuess := none
  countdownStartAt := none
  createdAt := 1

/-- A store in which every conceivable room code is already taken. -/
def saturatedStore : Store :=
  fun _ => some fullRoom

/-! ## Theorems -/

/-- Claim C7 counterexample: the claim says the room-code alphabet has
33 characters; the alphabet in the source
(`'ABCDEFGHJKLMNPQRSTUVWXYZ23456789'`) has 32. -/
theorem C7_counterexample :
    roomCodeChars.length = 32 ∧ ¬ roomCodeChars.length = 33 := by
  decide

/-- Claim C7 (amended): every room code produced by `generateRoomCode`
is 6 characters long, each drawn from the fixed 32-character alphabet of
uppercase letters and digits that excludes the visually ambiguous
characters `0`, `O`, `1` and `I`. -/
theorem C7_room_code_format (picks : Fin 6 → Fin 32) :
    (generateRoomCode picks).length = 6 ∧
    (∀ c ∈ (generateRoomCode picks).toList, c ∈ roomCodeChars) ∧
    roomCodeChars.length = 32 ∧
    (∀ c ∈ roomCodeChars, c.isUpper ∨ c.isDigit) ∧
    '0' ∉ roomCodeChars ∧ 'O' ∉ roomCodeChars ∧
    '1' ∉ roomCodeChars ∧ 'I' ∉ roomCodeChars := by
  refine ⟨?_, ?_, by decide, by decide, by decide, by decide, by decide,
    by decide⟩
  · rw [generateRoomCode, List.length_asString, List.length_ofFn]
  · intro c hc
    rw [generateRoomCode, List.toList_asString] at hc
    rcases (List.mem_ofFn _ _).1 hc with ⟨i, hi⟩
    rw [← hi]
    exact List.get_mem _ _ _

/-- Claim C10: `playAgain` resets scores and `currentRound` and nulls
`gameWinner`, `roundWinner` and both guesses in the same update that
sets `status = countdown`, re-establishing the invariants "`gameWinner`
is set iff `status` is `finished`" and "guesses are null at the start of
a round". -/
theorem C10_playAgain_reestablishes_invariants (pk : PokemonData)
    (now : Nat) (r : RoomData) :
    (playAgain pk now r).status = Status.countdown ∧
    (playAgain pk now r).scores = ⟨0, 0⟩ ∧
    (playAgain pk now r).currentRound = 1 ∧
    (playAgain pk now r).gameWinner = none ∧
    (playAgain pk now r).roundWinner = none ∧
    (playAgain pk now r).hostGuess = none ∧
    (playAgain pk now r).guestGuess = none ∧
    ((playAgain pk now r).gameWinner ≠ none ↔
      (playAgain pk now r).status = Status.finished) := by
  refine ⟨rfl, rfl, rfl, rfl, rfl, rfl, rfl, ?_⟩
  constructor
  · intro h
    exact absurd rfl h
  · intro h
    exact absurd h (by simp [playAgain])

/-- Claim C1 (code bug evaluation): on the reachable final-round room
`tieRoom` (round 5 of 5, scores host 1 / guest 2), a correct guess by
the host finishes the game with the scores tied 2-2, yet the code sets
`gameWinner = guest` — the claim (and the source's own tie handling in
the both-wrong branch) requires a strictly higher scorer, or null on a
tie at the round limit; here it crowns the player who lost the final
round. -/
theorem C1_tie_at_round_limit_crowns_guest :
    (submitGuess Role.host "pikachu" 60 tieRoom).1 = true ∧
    (submitGuess Role.host "pikachu" 60 tieRoom).2.status = Status.finished ∧
    (submitGuess Role.host "pikachu" 60 tieRoom).2.scores = ⟨2, 2⟩ ∧
    (submitGuess Role.host "pikachu" 60 tieRoom).2.roundWinner =
      some RoundWinner.host ∧
    (submitGuess Role.host "pikachu" 60 tieRoom).2.gameWinner =
      some Role.guest := by
  refine ⟨?_, ?_, ?_, ?_, ?_⟩ <;> decide

/-- Claim C3 (code bug evaluation): with every candidate code already
taken, the collision loop of `createRoom` exhausts its 10 retries and
the code then writes the fresh Room anyway, at the 11th generated code
(`gen 10`), overwriting the existing document; local state becomes
`waiting` with no error instead of returning to `idle` with a reported
failure. -/
theorem C3_exhausted_retries_still_write :
    pickCode (fun i => Nat.repr i) saturatedStore = "10" ∧
    saturatedStore "10" = some fullRoom ∧
    (createRoom (fun i => Nat.repr i) "player_h" 3 saturatedStore
      idleLS).1 "10" = some (freshRoom "player_h" 3) ∧
    (createRoom (fun i => Nat.repr i) "player_h" 3 saturatedStore
      idleLS).2.battleState = BState.waiting ∧
    (createRoom (fun i => Nat.repr i) "player_h" 3 saturatedStore
      idleLS).2.error = none := by
  refine ⟨?_, ?_, ?_, ?_, ?_⟩ <;> decide

/-- Whitespace is not kept by the alphanumeric filter. -/
theorem ws_not_alnum (c : Char) (h : isJsWhitespace c = true) :
    isLowerAlnum c = false := by
  rw [isJsWhitespace] at h
  simp only [Bool.or_eq_true, decide_eq_true_eq] at h
  rcases h with ((((h | h) | h) | h) | h) | h <;> subst h <;> decide

/-- Dropping a prefix of characters rejected by `p` does not change the
`p`-filtered residue. -/
theorem filter_dropWhile (p q : Char → Bool)
    (hpq : ∀ c, q c = true → p c = false) (l : List Char) :
    (l.dropWhile q).filter p = l.filter p := by
  induction l with
  | nil => rfl
  | cons a t ih =>
    by_cases hq : q a = true
    · rw [List.dropWhile_cons_of_pos hq, ih,
        List.filter_cons_of_neg (by simp [hpq a hq])]
    · rw [List.dropWhile_cons_of_neg (by simp [hq])]

/-- Trimming before stripping non-alphanumerics is redundant: `trim`
removes only whitespace, which the strip removes anyway. -/
theorem strip_trim (s : String) :
    jsStripNonAlnum (jsTrim s) = jsStripNonAlnum s := by
  rw [jsTrim, jsStripNonAlnum, jsStripNonAlnum, List.toList_asString,
    List.filter_reverse, filter_dropWhile _ _ ws_not_alnum,
    List.filter_reverse, List.reverse_reverse,
    filter_dropWhile _ _ ws_not_alnum]

/-- The two normalizations of the source agree on every string: the
guess side trims, the answer side does not, and the trim is absorbed by
the non-alphanumeric strip. -/
theorem normalizeAnswer_eq_normalizeGuess (s : String) :
    normalizeAnswer s = normalizeGuess s := by
  rw [normalizeGuess, normalizeAnswer, strip_trim]

/-- Claim C2: with the room in `playing` status, an active creature and
no prior guess by the caller, `submitGuess` returns `true` exactly when
the guess, lowercased, trimmed and stripped of non-alphanumeric
characters, equals the creature's name normalized the same way. -/
theorem C2_submitGuess_is_normalized_comparison (role : Role)
    (guess : String) (now : Nat) (r : RoomData) (pk : PokemonData)
    (hst : r.status = Status.playing)
    (hpk : r.currentPokemon = some pk)
    (hmy : myGuessOf role r = none) :
    ((submitGuess role guess now r).1 = true ↔
      normalizeGuess guess = normalizeGuess pk.name) := by
  rw [submitGuess, hst, hpk, hmy]
  simp only [ne_eq, not_true_eq_false, if_false]
  by_cases hc : normalizeGuess guess = normalizeAnswer pk.name
  · rw [if_pos hc]
    simp [hc ▸ normalizeAnswer_eq_normalizeGuess pk.name, hc,
      ← normalizeAnswer_eq_normalizeGuess]
  · rw [if_neg hc]
    rw [normalizeAnswer_eq_normalizeGuess] at hc
    cases hog : otherGuessOf role r with
    | none => simpa using hc
    | some og =>
      by_cases hcor : og.correct = true
      · simp only [hcor, if_true]
        simpa using hc
      · simp only [Bool.not_eq_true] at hcor
        simp only [hcor, Bool.false_eq_true, if_false]
        simpa using hc

/-- Claim C2 witness: a concrete punctuated guess (`" Mr. Mime! "`
against creature name `mr-mime`) where both normalizations agree. -/
theorem C2_witness :
    (submitGuess Role.guest " Mr. Mime! " 11
      { playRoom with currentPokemon := some ⟨122, "mr-mime", "img/122.png"⟩ }).1
      = true ↔
    normalizeGuess " Mr. Mime! " = normalizeGuess "mr-mime" :=
  C2_submitGuess_is_normalized_comparison Role.guest " Mr. Mime! " 11
    { playRoom with currentPokemon := some ⟨122, "mr-mime", "img/122.png"⟩ }
    ⟨122, "mr-mime", "img/122.png"⟩ rfl rfl rfl

/-- Once a `submitGuess` call passes every guard, the caller's guess
field is recorded in the resulting room (every branch writes it). -/
theorem myGuess_after_submit (role : Role) (g1 : String) (n1 : Nat)
    (r : RoomData) (hst : r.status = Status.playing)
    (hpk : r.currentPokemon ≠ none) (hmy : myGuessOf role r = none) :
    myGuessOf role (submitGuess role g1 n1 r).2 ≠ none := by
  cases hpk' : r.currentPokemon with
  | none => exact absurd hpk' hpk
  | some pk =>
    rw [submitGuess, hst, hpk', hmy]
    simp only [ne_eq, not_true_eq_false, if_false]
    by_cases hc : normalizeGuess g1 = normalizeAnswer pk.name
    · rw [if_pos hc]
      cases role <;> simp [myGuessOf, setMyGuess]
    · rw [if_neg hc]
      cases hog : otherGuessOf role r with
      | none => cases role <;> simp [myGuessOf, setMyGuess]
      | some og =>
        by_cases hcor : og.correct = true <;>
          simp only [hcor, Bool.false_eq_true, if_true, if_false] <;>
          cases role <;> simp [myGuessOf, setMyGuess]

/-- Claim C5: `submitGuess` is a no-op returning `false` (room document
untouched) when the status is not `playing`, there is no active
creature, or the caller already has a recorded guess; in particular a
second call by the same player in the same round returns `false` and
changes nothing. -/
theorem C5_submitGuess_noop (role : Role) (guess : String) (now : Nat)
    (r : RoomData) :
    ((r.status ≠ Status.playing ∨ r.currentPokemon = none ∨
        myGuessOf role r ≠ none) →
      submitGuess role guess now r = (false, r)) ∧
    (∀ g1 n1, r.status = Status.playing → r.currentPokemon ≠ none →
      myGuessOf role r = none →
      submitGuess role guess now (submitGuess role g1 n1 r).2 =
        (false, (submitGuess role g1 n1 r).2)) := by
  have noop : ∀ s : RoomData,
      (s.status ≠ Status.playing ∨ s.currentPokemon = none ∨
        myGuessOf role s ≠ none) →
      submitGuess role guess now s = (false, s) := by
    intro s h
    by_cases hst : s.status ≠ Status.playing
    · rw [submitGuess, if_pos hst]
    · rcases h with h | h | h
      · exact absurd h hst
      · rw [submitGuess, if_neg hst, h]
      · rw [submitGuess, if_neg hst]
        cases hpk : s.currentPokemon with
        | none => rfl
        | some pk =>
          cases hmy : myGuessOf role s with
          | none => exact absurd hmy h
          | some g => rfl
  refine ⟨noop r, ?_⟩
  intro g1 n1 hst hpk hmy
  exact noop _ (Or.inr (Or.inr (myGuess_after_submit role g1 n1 r hst hpk hmy)))

/-- Claim C5 witness: submitting into a room that is still `waiting` is
rejected, and a second guess after a recorded first one is rejected. -/
theorem C5_witness :
    submitGuess Role.host "pikachu" 0 fullRoom = (false, fullRoom) ∧
    submitGuess Role.guest "raichu" 9
        (submitGuess Role.guest "rattata" 5 playRoom).2 =
      (false, (submitGuess Role.guest "rattata" 5 playRoom).2) :=
  ⟨(C5_submitGuess_noop Role.host "pikachu" 0 fullRoom).1
      (Or.inl (by decide)),
   (C5_submitGuess_noop Role.guest "raichu" 9 playRoom).2 "rattata" 5
      rfl (by decide) rfl⟩

/-- Claim C4: `joinRoom` fails (returning `false`, store untouched,
local battle state `idle`) with a not-found error when no room exists
under the uppercased code, a capacity error when `guestId` is already
set, and an in-progress error when the status is not `waiting`; on
success it records the caller as guest, sets the status to `ready` and
returns `true`.  The hypothesis rules out a phantom empty-string
`guestId`, which JavaScript truthiness would treat as unset and which no
execution can produce (player ids always start with `player_`). -/
theorem C4_joinRoom_spec (store : Store) (pid : String) (ls : LocalState)
    (code : String)
    (hid : ∀ r, store (jsToUpper code) = some r → r.guestId ≠ some "") :
    (store (jsToUpper code) = none →
      (joinRoom store pid ls code).ok = false ∧
      (joinRoom store pid ls code).store = store ∧
      (joinRoom store pid ls code).local_.battleState = BState.idle ∧
      (joinRoom store pid ls code).local_.error =
        some "Room not found. Check the code and try again.") ∧
    (∀ r, store (jsToUpper code) = some r → r.guestId ≠ none →
      (joinRoom store pid ls code).ok = false ∧
      (joinRoom store pid ls code).store = store ∧
      (joinRoom store pid ls code).local_.battleState = BState.idle ∧
      (joinRoom store pid ls code).local_.error =
        some "Room is full. Try a different code.") ∧
    (∀ r, store (jsToUpper code) = some r → r.guestId = none →
      r.status ≠ Status.waiting →
      (joinRoom store pid ls code).ok = false ∧
      (joinRoom store pid ls code).store = store ∧
      (joinRoom store pid ls code).local_.battleState = BState.idle ∧
      (joinRoom store pid ls code).local_.error =
        some "Game already in progress.") ∧
    (∀ r, store (jsToUpper code) = some r → r.guestId = none →
      r.status = Status.waiting →
      (joinRoom store pid ls code).ok = true ∧
      (joinRoom store pid ls code).store =
        store.set (jsToUpper code)
          { r with guestId := some pid, status := Status.ready } ∧
      (joinRoom store pid ls code).local_.roomCode =
        some (jsToUpper code) ∧
      (joinRoom store pid ls code).local_.playerRole = some Role.guest ∧
      (joinRoom store pid ls code).local_.battleState = BState.ready) ∧
    ((joinRoom store pid ls code).ok = false →
      (joinRoom store pid ls code).local_.battleState = BState.idle ∧
      (joinRoom store pid ls code).store = store) := by
  refine ⟨?_, ?_, ?_, ?_, ?_⟩
  · intro h
    simp [joinRoom, h]
  · intro r hr hg
    obtain ⟨s, hs⟩ := Option.ne_none_iff_exists.mp hg
    have hs' : s ≠ "" := by
      intro h0
      exact hid r hr (by rw [← hs, h0])
    have ht : guestIdTruthy r.guestId = true := by
      rw [← hs, guestIdTruthy]
      simpa using hs'
    simp [joinRoom, hr, ht]
  · intro r hr hg hst
    have ht : guestIdTruthy r.guestId = false := by rw [hg]; rfl
    simp [joinRoom, hr, ht, hst]
  · intro r hr hg hst
    have ht : guestIdTruthy r.guestId = false := by rw [hg]; rfl
    simp [joinRoom, hr, ht, hst]
  · intro hok
    cases hkey : store (jsToUpper code) with
    | none => simp [joinRoom, hkey]
    | some r =>
      by_cases ht : guestIdTruthy r.guestId = true
      · simp [joinRoom, hkey, ht]
      · simp only [Bool.not_eq_true] at ht
        by_cases hst : r.status = Status.waiting
        · exfalso
          simp only [joinRoom, hkey, ht, Bool.false_eq_true, if_false, hst,
            ne_eq, not_true_eq_false] at hok
          exact Bool.noConfusion hok
        · simp [joinRoom, hkey, ht, hst]

/-- Claim C4 witness: joining a room whose `guestId` is already set
fails with the capacity error, leaves the store untouched and ends
`idle`. -/
theorem C4_witness :
    (joinRoom (fun c => if c = "AB23CD" then some fullRoom else none)
      "player_x" idleLS "ab23cd").ok = false ∧
    (joinRoom (fun c => if c = "AB23CD" then some fullRoom else none)
      "player_x" idleLS "ab23cd").local_.error =
      some "Room is full. Try a different code." ∧
    (joinRoom (fun c => if c = "AB23CD" then some fullRoom else none)
      "player_x" idleLS "ab23cd").local_.battleState = BState.idle := by
  have h := (C4_joinRoom_spec
    (fun c => if c = "AB23CD" then some fullRoom else none)
    "player_x" idleLS "ab23cd"
    (by intro r hr; simp only [show jsToUpper "ab23cd" = "AB23CD" from rfl,
          if_pos rfl] at hr
        cases hr; decide)).2.1 fullRoom
    (by simp only [show jsToUpper "ab23cd" = "AB23CD" from rfl]; rfl)
    (by decide)
  exact ⟨h.1, h.2.2.2, h.2.2.1⟩

/-- Conversion to a valid character code is the identity on the scalar
values below the surrogate range. -/
theorem toNat_ofNat_of_lt (n : Nat) (h : n < 55296) :
    (Char.ofNat n).toNat = n := by
  unfold Char.ofNat
  rw [dif_pos (Or.inl h)]
  rfl

/-- JavaScript `toUpperCase` is idempotent at each character. -/
theorem toUpper_idem (c : Char) :
    (Char.toUpper c).toUpper = Char.toUpper c := by
  unfold Char.toUpper
  by_cases h : c.toNat ≥ 97 ∧ c.toNat ≤ 122
  · rw [if_pos h, toNat_ofNat_of_lt _ (by omega), if_neg (by omega)]
  · rw [if_neg h, if_neg h]

/-- JavaScript `toUpperCase` is idempotent on strings. -/
theorem jsToUpper_idem (s : String) :
    jsToUpper (jsToUpper s) = jsToUpper s := by
  rw [jsToUpper, jsToUpper, List.toList_asString, List.map_map]
  have : ∀ l : List Char,
      l.map (Char.toUpper ∘ Char.toUpper) = l.map Char.toUpper := by
    intro l
    induction l with
    | nil => rfl
    | cons a t ih => simp [ih, toUpper_idem a]
  rw [this]

/-- Claim C9: `joinRoom` is case-insensitive in its code argument — it
looks up, updates and stores the uppercased form of the code, so calling
it with the uppercased code behaves identically. -/
theorem C9_joinRoom_case_insensitive (store : Store) (pid : String)
    (ls : LocalState) (code : String) :
    joinRoom store pid ls (jsToUpper code) = joinRoom store pid ls code := by
  simp only [joinRoom, jsToUpper_idem]

/-- Claim C8: `leaveRoom` by the host deletes the room document (and a
guest observing the deletion through the subscription resets to
`idle`); `leaveRoom` by the guest nulls `guestId` and resets the status
to `waiting`, leaving every other room field unchanged; in both cases
the caller's five local cells are reset to the idle configuration. -/
theorem C8_leaveRoom_spec (store : Store) (ls : LocalState) (code : String)
    (hcode : ls.roomCode = some code) :
    (ls.playerRole = some Role.host →
      (leaveRoom store ls).1 code = none ∧
      (∀ c, c ≠ code → (leaveRoom store ls).1 c = store c)) ∧
    (∀ r, ls.playerRole = some Role.guest → store code = some r →
      (leaveRoom store ls).1 code =
        some { r with guestId := none, status := Status.waiting } ∧
      (∀ c, c ≠ code → (leaveRoom store ls).1 c = store c)) ∧
    (leaveRoom store ls).2 = idleLS ∧
    (∀ ls', (handleSnapshot none ls').battleState = BState.idle ∧
      (handleSnapshot none ls').roomCode = none ∧
      (handleSnapshot none ls').playerRole = none ∧
      (handleSnapshot none ls').room = none) := by
  refine ⟨?_, ?_, ?_, ?_⟩
  · intro hrole
    simp only [leaveRoom, hcode, hrole]
    constructor
    · simp [Store.del]
    · intro c hc
      simp [Store.del, hc]
  · intro r hrole hr
    simp only [leaveRoom, hcode, hrole, hr]
    constructor
    · simp [Store.set]
    · intro c hc
      simp [Store.set, hc]
  · simp only [leaveRoom, hcode]
    rfl
  · intro ls'
    exact ⟨rfl, rfl, rfl, rfl⟩

/-- Claim C8 witness: a host leaving `AB23CD` deletes the document and
resets the local cells. -/
theorem C8_witness :
    (leaveRoom (fun c => if c = "AB23CD" then some fullRoom else none)
      ⟨some "AB23CD", some fullRoom, some Role.host, BState.waiting,
        none⟩).1 "AB23CD" = none ∧
    (leaveRoom (fun c => if c = "AB23CD" then some fullRoom else none)
      ⟨some "AB23CD", some fullRoom, some Role.host, BState.waiting,
        none⟩).2 = idleLS := by
  have h := C8_leaveRoom_spec
    (fun c => if c = "AB23CD" then some fullRoom else none)
    ⟨some "AB23CD", some fullRoom, some Role.host, BState.waiting, none⟩
    "AB23CD" rfl
  exact ⟨(h.1 rfl).1, h.2.2.1⟩

/-- Recording a guess does not change the scores. -/
theorem scoreSum_setMyGuess (role : Role) (g : PlayerGuess) (r : RoomData) :
    scoreSum (setMyGuess role g r) = scoreSum r := by
  cases role <;> rfl

/-- One `submitGuess` call adds exactly 1 to the score sum when it
returns `true` and 0 otherwise. -/
theorem submit_scoreSum (role : Role) (guess : String) (now : Nat)
    (r : RoomData) :
    scoreSum (submitGuess role guess now r).2 =
      scoreSum r +
        (if (submitGuess role guess now r).1 = true then 1 else 0) := by
  by_cases hst : r.status ≠ Status.playing
  · rw [submitGuess, if_pos hst]
    simp
  · rw [not_not] at hst
    cases hpk : r.currentPokemon with
    | none =>
      rw [submitGuess, hst, hpk]
      simp
    | some pk =>
      cases hmy : myGuessOf role r with
      | some g =>
        rw [submitGuess, hst, hpk, hmy]
        simp
      | none =>
        rw [submitGuess, hst, hpk, hmy]
        simp only [ne_eq, not_true_eq_false, if_false]
        by_cases hc : normalizeGuess guess = normalizeAnswer pk.name
        · rw [if_pos hc]
          cases role <;> simp [scoreSum, bumpScore, setMyGuess] <;> omega
        · rw [if_neg hc]
          cases hog : otherGuessOf role r with
          | none => simp [scoreSum_setMyGuess]
          | some og =>
            by_cases hcor : og.correct = true
            · simp [hcor, scoreSum_setMyGuess]
            · simp only [Bool.not_eq_true] at hcor
              simp only [hcor, Bool.false_eq_true, if_false]
              cases role <;> simp [scoreSum, setMyGuess]

/-- Per-step score-sum accounting: any action other than `playAgain`
changes the sum by the win indicator of that step. -/
theorem step_scoreSum (r : RoomData) (a : Action) (h : isAgain a = false) :
    scoreSum (Action.step r a) = scoreSum r +
      (if winsRound r a = true then 1 else 0) := by
  cases a with
  | submit role guess now => exact submit_scoreSum role guess now r
  | start pk now => simp [Action.step, winsRound, startGame, scoreSum]
  | next pk now => simp [Action.step, winsRound, nextRound, scoreSum]
  | again pk now => exact absurd h (by simp [isAgain])

/-- A `submitGuess` call that returns `true` finds the room `playing`
and leaves it `round_end` or `finished`. -/
theorem submit_true_resolves (role : Role) (guess : String) (now : Nat)
    (r : RoomData) (h : (submitGuess role guess now r).1 = true) :
    r.status = Status.playing ∧
    ((submitGuess role guess now r).2.status = Status.round_end ∨
     (submitGuess role guess now r).2.status = Status.finished) := by
  by_cases hst : r.status ≠ Status.playing
  · rw [submitGuess, if_pos hst] at h
    exact Bool.noConfusion h
  · rw [not_not] at hst
    refine ⟨hst, ?_⟩
    cases hpk : r.currentPokemon with
    | none =>
      rw [submitGuess, hst, hpk] at h
      simp at h
    | some pk =>
      cases hmy : myGuessOf role r with
      | some g =>
        rw [submitGuess, hst, hpk, hmy] at h
        simp at h
      | none =>
        rw [submitGuess, hst, hpk, hmy] at h ⊢
        simp only [ne_eq, not_true_eq_false, if_false] at h ⊢
        by_cases hc : normalizeGuess guess = normalizeAnswer pk.name
        · rw [if_pos hc]
          by_cases hgo : 5 ≤ r.currentRound ∨
              3 ≤ scoreOf role (bumpScore role r.scores)
          · right
            simp [hgo]
          · left
            simp [hgo]
        · rw [if_neg hc] at h
          cases hog : otherGuessOf role r with
          | none =>
            rw [hog] at h
            simp at h
          | some og =>
            rw [hog] at h
            simp [apply_ite Prod.fst] at h

/-- Claim C6: along any trace of room mutations that does not contain
`playAgain`, the score sum is non-decreasing, moves by at most 1 per
step, and after the trace equals its initial value plus the number of
steps in which one player was first to guess correctly; a winning guess
is exactly a round resolution with a winner (+1), and a resolution
without a winning guess (both players wrong) adds 0. -/
theorem C6_score_sum_invariant (r : RoomData) (acts : List Action)
    (hna : ∀ a ∈ acts, isAgain a = false) :
    scoreSum (runActions r acts) = scoreSum r + countWins r acts ∧
    (∀ a, isAgain a = false →
      scoreSum r ≤ scoreSum (Action.step r a) ∧
      scoreSum (Action.step r a) ≤ scoreSum r + 1) ∧
    (∀ a, winsRound r a = true →
      resolvesRound r a ∧ scoreSum (Action.step r a) = scoreSum r + 1) ∧
    (∀ a, resolvesRound r a → winsRound r a = false →
      scoreSum (Action.step r a) = scoreSum r) ∧
    (∀ (store : Store) (pid : String) (ls : LocalState) (code c : String)
        (r' : RoomData), (joinRoom store pid ls code).store c = some r' →
      ∃ r0, store c = some r0 ∧ r'.scores = r0.scores) ∧
    (∀ (store : Store) (ls : LocalState) (c : String) (r' : RoomData),
      (leaveRoom store ls).1 c = some r' →
      ∃ r0, store c = some r0 ∧ r'.scores = r0.scores) := by
  refine ⟨?_, ?_, ?_, ?_, ?_, ?_⟩
  · induction acts generalizing r with
    | nil => simp [runActions, countWins]
    | cons a as ih =>
      have ha : isAgain a = false := hna a (List.mem_cons_self a as)
      have hrest : ∀ b ∈ as, isAgain b = false := by
        intro b hb
        exact hna b (List.mem_cons_of_mem a hb)
      have h1 : runActions r (a :: as) = runActions (Action.step r a) as := rfl
      have h2 : countWins r (a :: as) =
          (if winsRound r a = true then 1 else 0) +
            countWins (Action.step r a) as := rfl
      rw [h1, h2, ih (Action.step r a) hrest, step_scoreSum r a ha]
      omega
  · intro a ha
    rw [step_scoreSum r a ha]
    by_cases hw : winsRound r a = true <;> simp [hw]
  · intro a hw
    cases a with
    | submit role guess now =>
      have hw' : (submitGuess role guess now r).1 = true := hw
      obtain ⟨hst, hres⟩ := submit_true_resolves role guess now r hw'
      refine ⟨⟨hst, hres⟩, ?_⟩
      rw [step_scoreSum r _ (by rfl), if_pos hw]
    | start pk now => exact Bool.noConfusion hw
    | next pk now => exact Bool.noConfusion hw
    | again pk now => exact Bool.noConfusion hw
  · intro a hres hw
    have ha : isAgain a = false := by
      cases a with
      | again pk now =>
        rcases hres.2 with h | h <;> exact Status.noConfusion h
      | submit role guess now => rfl
      | start pk now => rfl
      | next pk now => rfl
    rw [step_scoreSum r a ha, hw]
    simp
  · intro store pid ls code c r' h
    cases hkey : store (jsToUpper code) with
    | none =>
      simp only [joinRoom, hkey] at h
      exact ⟨r', h, rfl⟩
    | some rm =>
      by_cases ht : guestIdTruthy rm.guestId = true
      · simp only [joinRoom, hkey, ht, if_true] at h
        exact ⟨r', h, rfl⟩
      · simp only [Bool.not_eq_true] at ht
        by_cases hst : rm.status = Status.waiting
        · simp only [joinRoom, hkey, ht, Bool.false_eq_true, if_false, hst,
            ne_eq, not_true_eq_false, Store.set] at h
          by_cases hc : c = jsToUpper code
          · rw [if_pos hc] at h
            refine ⟨rm, hc ▸ hkey, ?_⟩
            cases h
            rfl
          · rw [if_neg hc] at h
            exact ⟨r', h, rfl⟩
        · simp only [joinRoom, hkey, ht, Bool.false_eq_true, if_false, ne_eq,
            hst, not_false_eq_true, if_true] at h
          exact ⟨r', h, rfl⟩
  · intro store ls c r' h
    cases hcode : ls.roomCode with
    | none =>
      simp only [leaveRoom, hcode] at h
      exact ⟨r', h, rfl⟩
    | some code =>
      cases hrole : ls.playerRole with
      | none =>
        simp only [leaveRoom, hcode, hrole] at h
        exact ⟨r', h, rfl⟩
      | some role =>
        cases role with
        | host =>
          simp only [leaveRoom, hcode, hrole, Store.del] at h
          by_cases hc : c = code
          · rw [if_pos hc] at h
            exact Option.noConfusion h
          · rw [if_neg hc] at h
            exact ⟨r', h, rfl⟩
        | guest =>
          simp only [leaveRoom, hcode, hrole] at h
          cases hr : store code with
          | none =>
            rw [hr] at h
            exact ⟨r', h, rfl⟩
          | some rm =>
            rw [hr] at h
            simp only [Store.set] at h
            by_cases hc : c = code
            · rw [if_pos hc] at h
              refine ⟨rm, hc ▸ hr, ?_⟩
              cases h
              rfl
            · rw [if_neg hc] at h
              exact ⟨r', h, rfl⟩

/-- Claim C6 witness: a wrong host guess followed by a correct guest
guess in the sample mid-round room adds exactly one point in total. -/
theorem C6_witness :
    scoreSum (runActions playRoom
      [Action.submit Role.host "charmander" 11,
       Action.submit Role.guest "pikachu" 12]) =
    scoreSum playRoom +
      countWins playRoom
        [Action.submit Role.host "charmander" 11,
         Action.submit Role.guest "pikachu" 12] :=
  (C6_score_sum_invariant playRoom
    [Action.submit Role.host "charmander" 11,
     Action.submit Role.guest "pikachu" 12] (by decide)).1

end Battle
